import Mathlib

/-!
Verification of the configuration-extraction and link-building pipeline of
`scripts/xray_reality_qr.py`: a shallow embedding of the JSON data model,
the schema validators, the inbound selection algorithm, the external
key-derivation boundary and the VLESS URI builder, together with theorems
settling the specification claims.

Modelling conventions:
* JSON documents are modelled by the inductive `JVal`; Python `dict` values
  (post `_expect_dict`) are association lists `List (String × JVal)` and
  `dict.get(k)` returns `JVal.null` for a missing key, matching Python's
  `None` (JSON `null` also loads as `None`).
* Functions that raise `UserError` are modelled in `Except String`, the
  error being the message string.
* Python `str.strip()` / regex `\s` are modelled over the ASCII whitespace
  characters (space, tab, newline, carriage return, vertical tab, form
  feed); the inputs exercised here are ASCII.
* The external `xray x25519` process of `compute_public_key_from_private`
  is an oracle argument: `none` models `FileNotFoundError` on spawn,
  `some proc` the completed process with its exit code and captured output.
-/

/-- JSON values as loaded by `json.loads` (floats are not modelled: no claim
involves them).  `bool` is a separate constructor, as in Python `bool` is
distinguished from `int` by `_expect_int`. -/
inductive JVal where
  | null : JVal
  | bool : Bool → JVal
  | int : Int → JVal
  | str : String → JVal
  | arr : List JVal → JVal
  | obj : List (String × JVal) → JVal

/-- Python `type(v).__name__` for JSON-loaded values, used in error messages. -/
def typeName : JVal → String
  | .null => "NoneType"
  | .bool _ => "bool"
  | .int _ => "int"
  | .str _ => "str"
  | .arr _ => "list"
  | .obj _ => "dict"

/-- `d.get(k)`: first binding wins (JSON objects have unique keys); missing
keys give `JVal.null`, Python's `None`. -/
def dictGet (d : List (String × JVal)) (k : String) : JVal :=
  match d.find? (fun kv => kv.1 == k) with
  | some kv => kv.2
  | none => .null

/-- Python ASCII whitespace (as stripped by `str.strip()` and matched by `\s`). -/
def isPyWs (c : Char) : Bool :=
  c = ' ' || c = '\t' || c = '\n' || c = '\r' || c = '\x0b' || c = '\x0c'

/-- Strip characters satisfying `p` from both ends of a list. -/
def stripList (p : Char → Bool) (l : List Char) : List Char :=
  ((l.dropWhile p).reverse.dropWhile p).reverse

/-- Python `str.strip()` (ASCII whitespace). -/
def pyStrip (s : String) : String := ⟨stripList isPyWs s.data⟩

/-- `_expect_dict(v, where)`. -/
def _expect_dict (v : JVal) (w : String) : Except String (List (String × JVal)) :=
  match v with
  | .obj fields => .ok fields
  | v => .error ("Expected object at " ++ w ++ ", got " ++ typeName v)

/-- `_expect_list(v, where)`. -/
def _expect_list (v : JVal) (w : String) : Except String (List JVal) :=
  match v with
  | .arr elems => .ok elems
  | v => .error ("Expected array at " ++ w ++ ", got " ++ typeName v)

/-- `_expect_str(v, where)`: a string that is non-empty after stripping;
returns the stripped string. -/
def _expect_str (v : JVal) (w : String) : Except String String :=
  match v with
  | .str s =>
    if pyStrip s = "" then .error ("Expected non-empty string at " ++ w)
    else .ok (pyStrip s)
  | _ => .error ("Expected non-empty string at " ++ w)

/-- `_expect_int(v, where)`: rejects `bool` (a separate `JVal` constructor)
even though Python `bool` is an `int` subclass. -/
def _expect_int (v : JVal) (w : String) : Except String Int :=
  match v with
  | .int n => .ok n
  | _ => .error ("Expected integer at " ++ w)

/-- Python `v == "lit"` for a JSON value `v`: true exactly on the equal string. -/
def jIsStr (v : JVal) (s : String) : Bool :=
  match v with
  | .str t => t == s
  | _ => false

/-- A hexadecimal digit, `[0-9a-fA-F]`. -/
def isHexDigit (c : Char) : Bool :=
  ('0' ≤ c && c ≤ '9') || ('a' ≤ c && c ≤ 'f') || ('A' ≤ c && c ≤ 'F')

/-- A URL-safe base64 alphabet character, `[A-Za-z0-9_-]`. -/
def isB64UrlChar (c : Char) : Bool :=
  ('A' ≤ c && c ≤ 'Z') || ('a' ≤ c && c ≤ 'z') || ('0' ≤ c && c ≤ '9') ||
    c = '_' || c = '-'

/-- `re.match` with pattern `^X{min,}$` for a character class `X`: the whole
string is a run of class characters of length at least `min`; Python's `$`
(without `MULTILINE`) also matches just before one trailing newline. -/
def reFullLine (p : Char → Bool) (min : Nat) (l : List Char) : Bool :=
  (decide (min ≤ l.length) && l.all p) ||
    (l.getLast? == some '\n' && decide (min ≤ l.dropLast.length) && l.dropLast.all p)

/-- `_B64URL_RE.match(s)`, pattern `^[A-Za-z0-9_-]{32,}$`. -/
def b64urlMatch (s : String) : Bool := reFullLine isB64UrlChar 32 s.data

/-- `_HEX_RE.match(s)`, pattern `^[0-9a-fA-F]+$`. -/
def hexReMatch (s : String) : Bool := reFullLine isHexDigit 1 s.data

/-- Python `str.replace(pat, "")` for a non-empty pattern `p :: ps`:
removes non-overlapping occurrences left to right.  The fuel argument
(instantiated with the list length) only serves termination; a step either
consumes the matched pattern (length ≥ 1) or one character. -/
def removeOccsFuel (p : Char) (ps : List Char) : Nat → List Char → List Char
  | 0, l => l
  | _ + 1, [] => []
  | fuel + 1, c :: rest =>
    if (p :: ps).isPrefixOf (c :: rest) then
      removeOccsFuel p ps fuel (rest.drop ps.length)
    else
      c :: removeOccsFuel p ps fuel rest

/-- `str.replace(String.mk (p :: ps), "")`. -/
def removeOccs (p : Char) (ps : List Char) (l : List Char) : List Char :=
  removeOccsFuel p ps l.length l

/-- Numeric value of a hex digit. -/
def hexVal (c : Char) : Nat :=
  if '0' ≤ c && c ≤ '9' then c.toNat - 48
  else if 'a' ≤ c && c ≤ 'f' then c.toNat - 87
  else c.toNat - 55

/-- Hex digits with CPython's underscore rule (a single `_` allowed between
digits), after at least one digit has been read; `acc` is the value so far. -/
def parseHexDigitsCore : Nat → List Char → Option Nat
  | acc, [] => some acc
  | _, ['_'] => none
  | acc, '_' :: c :: rest =>
    if isHexDigit c then parseHexDigitsCore (acc * 16 + hexVal c) rest else none
  | acc, c :: rest =>
    if isHexDigit c then parseHexDigitsCore (acc * 16 + hexVal c) rest else none

/-- A non-empty run of hex digits (with underscore rule), as in `int(s, 16)`. -/
def parseHexNum : List Char → Option Nat
  | c :: rest => if isHexDigit c then parseHexDigitsCore (hexVal c) rest else none
  | [] => none

/-- After the optional sign of `int(s, 16)`: an optional `0x`/`0X` prefix
(an `_` may directly follow the prefix), then digits. -/
def parseAfterSign (l : List Char) : Option Nat :=
  match l with
  | '0' :: c :: r =>
    if c = 'x' || c = 'X' then
      match r with
      | '_' :: r2 => parseHexNum r2
      | _ => parseHexNum r
    else parseHexNum ('0' :: c :: r)
  | _ => parseHexNum l

/-- CPython `int(s, 16)` on a character list: surrounding whitespace is
stripped, then an optional sign, optional `0x` prefix and hex digits with
single underscores between digits. -/
def pyIntHex (l : List Char) : Option Int :=
  match stripList isPyWs l with
  | '+' :: r => (parseAfterSign r).map (fun n => (n : Int))
  | '-' :: r => (parseAfterSign r).map (fun n => -(n : Int))
  | r => (parseAfterSign r).map (fun n => (n : Int))

/-- CPython `uuid.UUID(u)` succeeds: strip `urn:` and `uuid:` occurrences,
strip surrounding `{`/`}`, remove hyphens; the remainder must be exactly 32
characters, parse under `int(·, 16)`, and the value must be a 128-bit
non-negative integer. -/
def pyUUIDOk (u : String) : Bool :=
  let l := removeOccs 'u' ['r', 'n', ':'] u.data
  let l := removeOccs 'u' ['u', 'i', 'd', ':'] l
  let l := stripList (fun c => c = '\x7b' || c = '\x7d') l
  let l := removeOccs '-' [] l
  if l.length ≠ 32 then false
  else
    match pyIntHex l with
    | none => false
    | some v => decide (0 ≤ v ∧ v < (2 : Int) ^ 128)

/-- `_validate_uuid(u)`: any failure of the standard UUID parser becomes a
`UserError`. -/
def _validate_uuid (u : String) : Except String Unit :=
  if pyUUIDOk u then .ok () else .error ("Invalid UUID: " ++ u)

/-- `_validate_short_id(sid)`. -/
def _validate_short_id (sid : String) : Except String Unit :=
  if !hexReMatch sid then .error ("shortId must be hex, got: " ++ sid)
  else if sid.length % 2 ≠ 0 then
    .error ("shortId must have even length, got len=" ++ toString sid.length ++
      " (" ++ sid ++ ")")
  else .ok ()

/-- `_validate_private_key(pk)`. -/
def _validate_private_key (pk : String) : Except String Unit :=
  if !b64urlMatch pk then .error ("privateKey has unexpected format: " ++ pk)
  else .ok ()

/-- ASCII lowercasing of one character, as `str.lower()` acts on the
(hex-validated, hence ASCII) short id. -/
def asciiLower (c : Char) : Char :=
  if 'A' ≤ c && c ≤ 'Z' then Char.ofNat (c.toNat + 32) else c

/-- `str.lower()` (ASCII). -/
def pyLower (s : String) : String := ⟨s.data.map asciiLower⟩

/-- Join strings with a separator (Python `sep.join`). -/
def joinSep (sep : String) : List String → String
  | [] => ""
  | [x] => x
  | x :: xs => x ++ sep ++ joinSep sep xs

/-- One character of Python `repr` of a string, given the chosen quote
character (the common escapes; `\xXX` escapes of other control characters
are not modelled — no theorem inspects them). -/
def pyReprChar (q : Char) (c : Char) : String :=
  if c = '\\' then "\\\\"
  else if c = q then "\\" ++ String.singleton q
  else if c = '\n' then "\\n"
  else if c = '\r' then "\\r"
  else if c = '\t' then "\\t"
  else String.singleton c

/-- Python `repr` of a string: single quotes, or double quotes when the
string contains `'` but no `"`. -/
def pyReprStr (s : String) : String :=
  let q : Char := if s.data.contains '\'' && !(s.data.contains '"') then '"' else '\''
  String.singleton q ++ joinSep "" (s.data.map (pyReprChar q)) ++ String.singleton q

/-- Python `repr` of a JSON-loaded value (as interpolated by `f"{v!r}"`). -/
def pyRepr : JVal → String
  | .null => "None"
  | .bool true => "True"
  | .bool false => "False"
  | .int n => toString n
  | .str s => pyReprStr s
  | .arr xs => "[" ++ joinSep ", " (xs.attach.map fun x => pyRepr x.1) ++ "]"
  | .obj kvs =>
    "\x7b" ++ joinSep ", " (kvs.attach.map fun kv => pyReprStr kv.1.1 ++ ": " ++ pyRepr kv.1.2) ++ "\x7d"
termination_by v => sizeOf v
decreasing_by
  · have h := List.sizeOf_lt_of_mem x.2
    simp only [JVal.arr.sizeOf_spec]
    omega
  · have h := List.sizeOf_lt_of_mem kv.2
    have h2 : sizeOf kv.1.2 < sizeOf kv.1 := by
      obtain ⟨a, b⟩ := kv.1
      simp only [Prod.mk.sizeOf_spec]
      omega
    simp only [JVal.obj.sizeOf_spec]
    omega

/-- The validated record `RealityInbound` of the source. -/
structure RealityInbound where
  uuid : String
  flow : Option String
  port : Int
  network : String
  sni : String
  short_id : String
  private_key : String
deriving DecidableEq

/-- A Python `if not ok-condition: raise UserError(msg)` statement: succeeds
when the condition holds, raises `msg` otherwise. -/
def pyCheck (b : Bool) (msg : String) : Except String Unit :=
  if b then .ok () else .error msg

/-- The source's optional-field idiom
`flow = c0.get("flow"); if flow is not None: flow = _expect_str(flow, …)`:
a missing/null field is `none`, any present value must pass `_expect_str`. -/
def optStrField (v : JVal) (w : String) : Except String (Option String) :=
  match v with
  | JVal.null => .ok none
  | v => (_expect_str v w).map some

/-- The closure `parse_one(idx, inbound_any)` of `_select_inbound`:
full per-candidate validation, in the source's order (each `pyCheck` models
one `if …: raise UserError(…)` statement, with the condition negated). -/
def parse_one (idx : Nat) (inbound_any : JVal) : Except String RealityInbound := do
  let ib ← _expect_dict inbound_any ("inbounds[" ++ toString idx ++ "]")
  let protocol := dictGet ib "protocol"
  let _ ← pyCheck (jIsStr protocol "vless")
    ("inbounds[" ++ toString idx ++ "] protocol is not vless: " ++ pyRepr protocol)
  let port ← _expect_int (dictGet ib "port") ("inbounds[" ++ toString idx ++ "].port")
  let _ ← pyCheck (decide (1 ≤ port ∧ port ≤ 65535))
    ("inbounds[" ++ toString idx ++ "].port out of range: " ++ toString port)
  let settings ← _expect_dict (dictGet ib "settings") ("inbounds[" ++ toString idx ++ "].settings")
  let clients ← _expect_list (dictGet settings "clients")
    ("inbounds[" ++ toString idx ++ "].settings.clients")
  let _ ← pyCheck (!clients.isEmpty)
    ("inbounds[" ++ toString idx ++ "].settings.clients is empty")
  let c0 ← _expect_dict (clients.headD JVal.null)
    ("inbounds[" ++ toString idx ++ "].settings.clients[0]")
  let uuid ← _expect_str (dictGet c0 "id")
    ("inbounds[" ++ toString idx ++ "].settings.clients[0].id")
  let flow ← optStrField (dictGet c0 "flow")
    ("inbounds[" ++ toString idx ++ "].settings.clients[0].flow")
  let stream ← _expect_dict (dictGet ib "streamSettings")
    ("inbounds[" ++ toString idx ++ "].streamSettings")
  let network ← _expect_str (dictGet stream "network")
    ("inbounds[" ++ toString idx ++ "].streamSettings.network")
  let security ← _expect_str (dictGet stream "security")
    ("inbounds[" ++ toString idx ++ "].streamSettings.security")
  let _ ← pyCheck (security == "reality")
    ("inbounds[" ++ toString idx ++ "] streamSettings.security is not reality: " ++
      pyReprStr security)
  let reality ← _expect_dict (dictGet stream "realitySettings")
    ("inbounds[" ++ toString idx ++ "].streamSettings.realitySettings")
  let server_names ← _expect_list (dictGet reality "serverNames")
    ("inbounds[" ++ toString idx ++ "].streamSettings.realitySettings.serverNames")
  let _ ← pyCheck (!server_names.isEmpty)
    ("inbounds[" ++ toString idx ++ "].streamSettings.realitySettings.serverNames is empty")
  let sni ← _expect_str (server_names.headD JVal.null)
    ("inbounds[" ++ toString idx ++ "].streamSettings.realitySettings.serverNames[0]")
  let short_ids ← _expect_list (dictGet reality "shortIds")
    ("inbounds[" ++ toString idx ++ "].streamSettings.realitySettings.shortIds")
  let _ ← pyCheck (!short_ids.isEmpty)
    ("inbounds[" ++ toString idx ++ "].streamSettings.realitySettings.shortIds is empty")
  let short_id ← _expect_str (short_ids.headD JVal.null)
    ("inbounds[" ++ toString idx ++ "].streamSettings.realitySettings.shortIds[0]")
  let private_key ← _expect_str (dictGet reality "privateKey")
    ("inbounds[" ++ toString idx ++ "].streamSettings.realitySettings.privateKey")
  let _ ← _validate_uuid uuid
  let _ ← _validate_short_id short_id
  let _ ← _validate_private_key private_key
  pure { uuid := uuid, flow := flow, port := port, network := network, sni := sni,
         short_id := pyLower short_id, private_key := private_key }

/-- The auto-select loop of `_select_inbound`: try candidates in order,
return the first success, remember the last error.  `idx` is the index of
the head candidate; `lastErr` is the last error observed so far
(`none` models Python's initial `last_err = None`, formatted as `"None"`). -/
def scanInbounds : Nat → Option String → List JVal → Except String RealityInbound
  | _, lastErr, [] =>
    .error ("No matching inbound found (need protocol=vless + security=reality). Last error: " ++
      (match lastErr with | none => "None" | some e => e))
  | idx, _, ib :: rest =>
    match parse_one idx ib with
    | .ok r => .ok r
    | .error e => scanInbounds (idx + 1) (some e) rest

/-- `_select_inbound(cfg, inbound_index)`.  `cfg` is the root object's
binding list (the source receives it after `_expect_dict`); the index is a
Python `int`, hence `Int`. -/
def _select_inbound (cfg : List (String × JVal)) (inbound_index : Option Int) :
    Except String RealityInbound := do
  let inbounds ← _expect_list (dictGet cfg "inbounds") "inbounds"
  let _ ← pyCheck (!inbounds.isEmpty) "No inbounds found in config"
  match inbound_index with
  | some i =>
    if i < 0 ∨ i ≥ inbounds.length then
      throw ("--inbound-index " ++ toString i ++ " is out of range (0.." ++
        toString ((inbounds.length : Int) - 1) ++ ")")
    else
      parse_one i.toNat (inbounds.getD i.toNat JVal.null)
  | none => scanInbounds 0 none inbounds

/-- UTF-8 bytes of one character (as values below 256). -/
def utf8Bytes (c : Char) : List Nat :=
  if c.toNat < 128 then [c.toNat]
  else if c.toNat < 2048 then [192 + c.toNat / 64, 128 + c.toNat % 64]
  else if c.toNat < 65536 then
    [224 + c.toNat / 4096, 128 + c.toNat / 64 % 64, 128 + c.toNat % 64]
  else
    [240 + c.toNat / 262144, 128 + c.toNat / 4096 % 64, 128 + c.toNat / 64 % 64,
     128 + c.toNat % 64]

/-- Uppercase hex digit of a value below 16. -/
def hexUpper (n : Nat) : Char :=
  if n < 10 then Char.ofNat (48 + n) else Char.ofNat (55 + n)

/-- `%XX` percent-escape of one byte. -/
def percentByte (b : Nat) : List Char := ['%', hexUpper (b / 16), hexUpper (b % 16)]

/-- `urllib.parse.quote`'s always-safe characters: ASCII letters, digits
and `_.-~`. -/
def alwaysSafeChar (c : Char) : Bool :=
  ('A' ≤ c && c ≤ 'Z') || ('a' ≤ c && c ≤ 'z') || ('0' ≤ c && c ≤ '9') ||
    c = '_' || c = '.' || c = '-' || c = '~'

/-- `urllib.parse.quote(s, safe)` on a character list: safe and always-safe
characters pass through, every other character is UTF-8 encoded and each
byte percent-escaped. -/
def pyQuoteL (safe : List Char) (l : List Char) : List Char :=
  l.flatMap fun c =>
    if alwaysSafeChar c || safe.contains c then [c]
    else (utf8Bytes c).flatMap percentByte

/-- `urllib.parse.quote(s, safe)` on strings. -/
def pyQuote (safe : List Char) (s : String) : String := ⟨pyQuoteL safe s.data⟩

/-- `urllib.parse.urlencode(params, quote_via=quote)`: keys and values
quoted with `quote` and the default `safe=''`, joined as `k=v` pairs with
`&`; the parameter list keeps insertion order, as a Python dict does. -/
def pyUrlencode (params : List (String × String)) : String :=
  joinSep "&" (params.map fun kv => pyQuote [] kv.1 ++ "=" ++ pyQuote [] kv.2)

/-- The flow entry appended to the parameter dict: present exactly when
`inbound.flow` is truthy (non-`None` and non-empty). -/
def flowParams (flow : Option String) : List (String × String) :=
  match flow with
  | some f => if f = "" then [] else [("flow", f)]
  | none => []

/-- `build_vless_link(server, name, fp, inbound, public_key)`. -/
def build_vless_link (server name fp : String) (inbound : RealityInbound)
    (public_key : String) : String :=
  let params : List (String × String) :=
    [("type", inbound.network), ("security", "reality"), ("sni", inbound.sni),
     ("fp", fp), ("pbk", public_key), ("sid", inbound.short_id)] ++ flowParams inbound.flow
  let query := pyUrlencode params
  let frag := pyQuote [] name
  "vless://" ++ inbound.uuid ++ "@" ++ server ++ ":" ++ toString inbound.port ++
    "?" ++ query ++ "#" ++ frag

/-- Result of the spawned `xray x25519 -i` process: exit code and captured
combined stdout/stderr (`text=True`). -/
structure ProcResult where
  returncode : Int
  stdout : String
deriving DecidableEq

/-- One attempt of the regex `^(?:Password|PublicKey):\s*(\S+)\s*$`
(`re.MULTILINE`) anchored at a line start: after the label, `\s*` skips any
whitespace — newlines included, so the token may sit on a following line —
then `(\S+)` takes the maximal whitespace-free run, and `\s*$` requires the
remainder of the token's line to be whitespace (`$` matches before a `\n`
or at the end).  Greedy `\S+` cannot usefully backtrack, so the token is
the maximal run. -/
def matchLabelAt (l : List Char) : Option String :=
  let rest : Option (List Char) :=
    if "Password:".data.isPrefixOf l then some (l.drop 9)
    else if "PublicKey:".data.isPrefixOf l then some (l.drop 10)
    else none
  match rest with
  | none => none
  | some r =>
    let afterWs := r.dropWhile isPyWs
    if afterWs.isEmpty then none
    else
      let token := afterWs.takeWhile (fun c => !isPyWs c)
      let tail := afterWs.dropWhile (fun c => !isPyWs c)
      if (tail.takeWhile (fun c => c ≠ '\n')).all isPyWs then some ⟨token⟩ else none

/-- The `re.search` scan: try each line start (where `^` can match) from
left to right, returning the first successful match's token.  The fuel
(instantiated with the length plus one, an upper bound on the number of
line starts) only serves termination. -/
def findTokenFuel : Nat → List Char → Option String
  | 0, _ => none
  | fuel + 1, l =>
    match matchLabelAt l with
    | some t => some t
    | none =>
      match l.dropWhile (fun c => c ≠ '\n') with
      | _ :: rest => findTokenFuel fuel rest
      | [] => none

/-- `re.search(r"^(?:Password|PublicKey):\s*(\S+)\s*$", out, re.MULTILINE)`:
the first line start carrying a labelled token, where the whitespace after
the label may span line breaks. -/
def findKeyToken (out : String) : Option String :=
  findTokenFuel (out.data.length + 1) out.data

/-- The label regex applied to one newline-delimited line in isolation:
the label, whitespace, one whitespace-free token and trailing whitespace
all on that line. -/
def lineKeyToken (line : List Char) : Option String :=
  let rest : Option (List Char) :=
    if "Password:".data.isPrefixOf line then some (line.drop 9)
    else if "PublicKey:".data.isPrefixOf line then some (line.drop 10)
    else none
  match rest with
  | none => none
  | some r =>
    let t := stripList isPyWs r
    if t ≠ [] ∧ t.all (fun c => !isPyWs c) then some ⟨t⟩ else none

/-- Split on newlines (Python `str.split("\n")`). -/
def splitLines : List Char → List (List Char)
  | [] => [[]]
  | c :: rest =>
    match splitLines rest with
    | g :: gs => if c = '\n' then [] :: g :: gs else (c :: g) :: gs
    | [] => [[c]]

/-- The claim's per-line reading, "some line of its output carries the
derived token under one of the two label spellings": the label search
applied line by line.  This is a second definition following the claim's
words, kept to compare with `findKeyToken`, the model of the source's
`re.MULTILINE` search — the two differ when the token sits on the line
after its label. -/
def perLineKeyToken (out : String) : Option String :=
  (splitLines out.data).findSome? lineKeyToken

/-- `compute_public_key_from_private(private_key)`, with the external
process as an oracle: `none` models `FileNotFoundError` when spawning,
`some proc` a completed process. -/
def compute_public_key_from_private (private_key : String) (spawn : Option ProcResult) :
    Except String String :=
  match spawn with
  | none =>
    .error ("xray binary not found in PATH. Install xray or set XRAY_BIN to the xray executable path.\n" ++
      "Example: export XRAY_BIN=/usr/local/bin/xray")
  | some proc =>
    let out := pyStrip proc.stdout
    if proc.returncode ≠ 0 then
      .error ("xray x25519 -i failed (exit " ++ toString proc.returncode ++ "). Output:\n" ++
        out ++ "\n\nHint: ensure privateKey is correct and xray is installed.")
    else
      match findKeyToken out with
      | none => .error ("Failed to parse public key from xray output:\n" ++ out)
      | some m =>
        let pub := pyStrip m
        if b64urlMatch pub then .ok pub
        else .error ("Parsed publicKey has unexpected format: " ++ pub)

/-- Value of a hex digit, accepting both cases (percent-escape decoding). -/
def hexDigitVal? (c : Char) : Option Nat :=
  if '0' ≤ c && c ≤ '9' then some (c.toNat - 48)
  else if 'A' ≤ c && c ≤ 'F' then some (c.toNat - 55)
  else if 'a' ≤ c && c ≤ 'f' then some (c.toNat - 87)
  else none

/-- Strict percent-decoding of a URI component to its bytes: `%XX` escapes
become the escaped byte, other ASCII characters stand for themselves. -/
def percentDecodeBytes : List Char → Option (List Nat)
  | [] => some []
  | c :: rest =>
    if c = '%' then
      match rest with
      | h :: lo :: rest2 => do
        let a ← hexDigitVal? h
        let b ← hexDigitVal? lo
        let tail ← percentDecodeBytes rest2
        pure ((a * 16 + b) :: tail)
      | _ => none
    else if c.toNat < 128 then (percentDecodeBytes rest).map (c.toNat :: ·)
    else none

/-- One continuation byte of UTF-8. -/
def isContByte (b : Nat) : Bool := 0x80 ≤ b && b < 0xC0

/-- Decode one UTF-8 encoded character from the head of a byte list,
returning it with the remaining bytes. -/
def utf8DecodeOne : List Nat → Option (Char × List Nat)
  | [] => none
  | b0 :: l1 =>
    if b0 < 128 then some (Char.ofNat b0, l1)
    else if b0 < 192 then none
    else if b0 < 224 then
      match l1 with
      | b1 :: l2 =>
        if isContByte b1 then some (Char.ofNat ((b0 - 192) * 64 + (b1 - 128)), l2)
        else none
      | [] => none
    else if b0 < 240 then
      match l1 with
      | b1 :: b2 :: l3 =>
        if isContByte b1 && isContByte b2 then
          some (Char.ofNat ((b0 - 224) * 4096 + (b1 - 128) * 64 + (b2 - 128)), l3)
        else none
      | _ => none
    else if b0 < 248 then
      match l1 with
      | b1 :: b2 :: b3 :: l4 =>
        if isContByte b1 && isContByte b2 && isContByte b3 then
          some (Char.ofNat ((b0 - 240) * 262144 + (b1 - 128) * 4096 +
            (b2 - 128) * 64 + (b3 - 128)), l4)
        else none
      | _ => none
    else none

/-- UTF-8 decoding loop; the fuel (instantiated with the list length, an
upper bound on the character count) only serves termination. -/
def utf8DecodeFuel : Nat → List Nat → Option (List Char)
  | _, [] => some []
  | 0, _ :: _ => none
  | fuel + 1, b :: l =>
    match utf8DecodeOne (b :: l) with
    | some (c, rest) => (utf8DecodeFuel fuel rest).map (c :: ·)
    | none => none

/-- UTF-8 decoding of a byte list back to characters. -/
def utf8Decode (l : List Nat) : Option (List Char) := utf8DecodeFuel l.length l

/-- Percent-decoding of a URI component: escapes to bytes, bytes to text
(UTF-8). -/
def pyUnquote (s : String) : Option String :=
  (percentDecodeBytes s.data).bind fun bs => (utf8Decode bs).map fun cs => ⟨cs⟩

/-- A run of exactly `k` hex digits, returning the remainder of the list. -/
def hexRun : Nat → List Char → Option (List Char)
  | 0, l => some l
  | _ + 1, [] => none
  | k + 1, c :: rest => if isHexDigit c then hexRun k rest else none

/-- The canonical hyphenated 36-character UUID form of the specification:
hex groups of 8-4-4-4-12 separated by `-`. -/
def isCanonicalUuid (s : String) : Bool :=
  match hexRun 8 s.data with
  | some ('-' :: r1) =>
    match hexRun 4 r1 with
    | some ('-' :: r2) =>
      match hexRun 4 r2 with
      | some ('-' :: r3) =>
        match hexRun 4 r3 with
        | some ('-' :: r4) => hexRun 12 r4 == some []
        | _ => false
      | _ => false
    | _ => false
  | _ => false

/-- Test-input constructor: one inbound object whose leaf values are the
given field values (protocol `vless`, security `reality`). -/
def mkInbound (uuid : String) (flow : Option String) (port : Int)
    (network sni shortId pk : String) : JVal :=
  JVal.obj [
    ("protocol", JVal.str "vless"),
    ("port", JVal.int port),
    ("settings", JVal.obj [("clients", JVal.arr [JVal.obj
      ([("id", JVal.str uuid)] ++
        (match flow with | some f => [("flow", JVal.str f)] | none => []))])]),
    ("streamSettings", JVal.obj [
      ("network", JVal.str network),
      ("security", JVal.str "reality"),
      ("realitySettings", JVal.obj [
        ("serverNames", JVal.arr [JVal.str sni]),
        ("shortIds", JVal.arr [JVal.str shortId]),
        ("privateKey", JVal.str pk)])])]

/-- Test-input constructor: a one-inbound config document. -/
def mkCfg (uuid : String) (flow : Option String) (port : Int)
    (network sni shortId pk : String) : List (String × JVal) :=
  [("inbounds", JVal.arr [mkInbound uuid flow port network sni shortId pk])]

/-- A document whose first candidate is invalid (not an object) and whose
second candidate is fully valid. -/
def cfgBadFirst : List (String × JVal) :=
  [("inbounds", JVal.arr [JVal.str "bad",
    mkInbound "11111111-1111-1111-1111-111111111111" none 443 "tcp" "example.com" "ab12"
      "aaaaaaaaaaaaaaaaaaaaaaaaaaaaaaaa"])]

/-- A document both of whose candidates fail validation. -/
def cfgAllBad : List (String × JVal) :=
  [("inbounds", JVal.arr [JVal.str "bad", JVal.bool true])]

/-- The example scenario's input document. -/
def exampleCfg : List (String × JVal) :=
  mkCfg "11111111-1111-1111-1111-111111111111" none 443 "tcp" "example.com" "ab12"
    "aaaaaaaaaaaaaaaaaaaaaaaaaaaaaaaa"

/-- The record the example scenario extracts. -/
def exampleRecord : RealityInbound :=
  { uuid := "11111111-1111-1111-1111-111111111111", flow := none, port := 443,
    network := "tcp", sni := "example.com", short_id := "ab12",
    private_key := "aaaaaaaaaaaaaaaaaaaaaaaaaaaaaaaa" }

/-- A record with a present, non-empty `flow` field. -/
def flowRecord : RealityInbound :=
  { uuid := "11111111-1111-1111-1111-111111111111", flow := some "xtls-rprx-vision",
    port := 443, network := "tcp", sni := "example.com", short_id := "ab12",
    private_key := "aaaaaaaaaaaaaaaaaaaaaaaaaaaaaaaa" }

/-- A record whose `flow` field is present but empty (a value of the record
type; extraction never produces it, see the flow invariant). -/
def emptyFlowRecord : RealityInbound :=
  { uuid := "11111111-1111-1111-1111-111111111111", flow := some "", port := 443,
    network := "tcp", sni := "example.com", short_id := "ab12",
    private_key := "aaaaaaaaaaaaaaaaaaaaaaaaaaaaaaaa" }

deriving instance DecidableEq for Except

set_option maxRecDepth 40000

/-! ## Basic lemmas about the embedding -/

@[simp] theorem exceptBind_ok {ε α β : Type} (a : α) (f : α → Except ε β) :
    (Except.ok a : Except ε α) >>= f = f a := rfl

@[simp] theorem exceptBind_error {ε α β : Type} (e : ε) (f : α → Except ε β) :
    (Except.error e : Except ε α) >>= f = Except.error e := rfl

@[simp] theorem exceptPure_eq {ε α : Type} (a : α) :
    (pure a : Except ε α) = Except.ok a := rfl

@[simp] theorem exceptThrow_eq {ε α : Type} (e : ε) :
    (throw e : Except ε α) = Except.error e := rfl

@[simp] theorem exceptMap_ok {ε α β : Type} (f : α → β) (a : α) :
    (Except.ok a : Except ε α).map f = Except.ok (f a) := rfl

@[simp] theorem exceptMap_error {ε α β : Type} (f : α → β) (e : ε) :
    (Except.error e : Except ε α).map f = Except.error e := rfl

theorem exceptBind_eq_ok {ε α β : Type} {e : Except ε α} {f : α → Except ε β} {b : β}
    (h : e >>= f = .ok b) : ∃ a, e = .ok a ∧ f a = .ok b := by
  cases e with
  | ok a => exact ⟨a, rfl, h⟩
  | error msg => simp at h

/-! ## Claim C1: the example scenario -/

/-- C1: on the example document (protocol vless, port 443, client id
`11111111-1111-1111-1111-111111111111`, tcp/reality, serverName
`example.com`, shortId `ab12`, privateKey 32 × `a`), with server `1.2.3.4`,
name `x`, fp `chrome` and derived public key `PUBKEY` + 26 × `B`,
extraction followed by URI construction yields exactly the claimed string. -/
theorem example_extract_build_exact :
    (_select_inbound exampleCfg none).map
      (fun r => build_vless_link "1.2.3.4" "x" "chrome" r "PUBKEYBBBBBBBBBBBBBBBBBBBBBBBBBB") =
    .ok "vless://11111111-1111-1111-1111-111111111111@1.2.3.4:443?type=tcp&security=reality&sni=example.com&fp=chrome&pbk=PUBKEYBBBBBBBBBBBBBBBBBBBBBBBBBB&sid=ab12#x" := by
  decide

/-! ## Claim C9: the integer accessor -/

/-- C9: `_expect_int` fails on every boolean (a distinct constructor of the
JSON model, as Python `bool` is rejected explicitly) and returns every
non-boolean integer unchanged. -/
theorem expect_int_rejects_bool_accepts_int (w : String) :
    (∀ b : Bool, _expect_int (JVal.bool b) w = .error ("Expected integer at " ++ w)) ∧
    (∀ n : Int, _expect_int (JVal.int n) w = .ok n) :=
  ⟨fun _ => rfl, fun _ => rfl⟩

/-! ## Claim C4: UUID validation -/

/-- C4 counterexample: the 32-character unhyphenated hex string is accepted
by `_validate_uuid` although its length is not 36, refuting "rejects every
string of any other length or format". -/
theorem validate_uuid_accepts_32hex :
    _validate_uuid "11111111111111111111111111111111" = .ok () ∧
    "11111111111111111111111111111111".length ≠ 36 := by
  constructor
  · decide
  · decide

/-! ## Lemmas about `stripList` -/

theorem head?_dropWhile_not {p : Char → Bool} {l : List Char} {c : Char}
    (h : (l.dropWhile p).head? = some c) : p c = false := by
  induction l with
  | nil => simp at h
  | cons a l ih =>
    rw [List.dropWhile_cons] at h
    by_cases hp : p a
    · simp [hp] at h
      exact ih h
    · simp [hp] at h
      subst h
      simpa using hp

theorem getLast?_dropWhile {p : Char → Bool} {l : List Char}
    (h : l.dropWhile p ≠ []) : (l.dropWhile p).getLast? = l.getLast? := by
  induction l with
  | nil => simp at h
  | cons a l ih =>
    rw [List.dropWhile_cons]
    by_cases hp : p a
    · rw [List.dropWhile_cons, if_pos hp] at h
      rw [if_pos hp, ih h]
      cases l with
      | nil => simp at h
      | cons b l => simp
    · rw [if_neg hp]

theorem stripList_head {p : Char → Bool} {l : List Char} {c : Char}
    (h : (stripList p l).head? = some c) : p c = false := by
  unfold stripList at h
  rw [List.head?_reverse] at h
  have hne : (l.dropWhile p).reverse.dropWhile p ≠ [] := by
    intro he
    rw [he] at h
    simp at h
  rw [getLast?_dropWhile hne, List.getLast?_reverse] at h
  exact head?_dropWhile_not h

theorem stripList_getLast {p : Char → Bool} {l : List Char} {c : Char}
    (h : (stripList p l).getLast? = some c) : p c = false := by
  unfold stripList at h
  rw [List.getLast?_reverse] at h
  exact head?_dropWhile_not h

theorem dropWhile_eq_self_of_head {p : Char → Bool} {l : List Char}
    (h : ∀ c, l.head? = some c → p c = false) : l.dropWhile p = l := by
  cases l with
  | nil => simp
  | cons a l => rw [List.dropWhile_cons, if_neg (by simp [h a rfl])]

theorem stripList_idem (p : Char → Bool) (l : List Char) :
    stripList p (stripList p l) = stripList p l := by
  have h1 : (stripList p l).dropWhile p = stripList p l :=
    dropWhile_eq_self_of_head fun c hc => stripList_head hc
  have h2 : (stripList p l).reverse.dropWhile p = (stripList p l).reverse := by
    refine dropWhile_eq_self_of_head fun c hc => ?_
    rw [List.head?_reverse] at hc
    exact stripList_getLast hc
  show ((((stripList p l).dropWhile p).reverse.dropWhile p)).reverse = stripList p l
  rw [h1, h2, List.reverse_reverse]

theorem pyStrip_idem (s : String) : pyStrip (pyStrip s) = pyStrip s := by
  unfold pyStrip
  exact congrArg String.mk (stripList_idem isPyWs s.data)

/-- What success of `_expect_str` tells about its input and output. -/
theorem expect_str_ok {v : JVal} {w s : String} (h : _expect_str v w = .ok s) :
    ∃ t, v = JVal.str t ∧ s = pyStrip t ∧ s ≠ "" ∧ pyStrip s = s := by
  cases v with
  | str t =>
    unfold _expect_str at h
    by_cases he : pyStrip t = ""
    · simp [he] at h
    · simp [he] at h
      subst h
      exact ⟨t, rfl, rfl, he, pyStrip_idem t⟩
  | null => simp [_expect_str] at h
  | bool b => simp [_expect_str] at h
  | int n => simp [_expect_str] at h
  | arr xs => simp [_expect_str] at h
  | obj kvs => simp [_expect_str] at h

/-! ## Lemmas about the auto-select scan -/

theorem scan_first_success :
    ∀ (l : List JVal) (start : Nat) (le : Option String) (i : Nat) (r : RealityInbound),
      i < l.length →
      parse_one (start + i) (l.getD i JVal.null) = .ok r →
      (∀ j, j < i → ∃ e, parse_one (start + j) (l.getD j JVal.null) = .error e) →
      scanInbounds start le l = .ok r := by
  intro l
  induction l with
  | nil => intro start le i r hi; simp at hi
  | cons v rest ih =>
    intro start le i r hi hok hprev
    cases i with
    | zero =>
      simp at hok
      simp [scanInbounds, hok]
    | succ i =>
      obtain ⟨e0, he0⟩ := hprev 0 (Nat.succ_pos i)
      simp at he0
      rw [scanInbounds, he0]
      have hok' : parse_one (start + 1 + i) (rest.getD i JVal.null) = .ok r := by
        rw [show start + 1 + i = start + (i + 1) by omega]
        simpa using hok
      refine ih (start + 1) (some e0) i r (by simpa using hi) hok' ?_
      intro j hj
      obtain ⟨e, he⟩ := hprev (j + 1) (by omega)
      refine ⟨e, ?_⟩
      rw [show start + 1 + j = start + (j + 1) by omega]
      simpa using he

theorem scan_all_fail :
    ∀ (l : List JVal) (start : Nat) (le : Option String),
      l ≠ [] →
      (∀ j, j < l.length → ∃ e, parse_one (start + j) (l.getD j JVal.null) = .error e) →
      ∃ e, parse_one (start + (l.length - 1)) (l.getD (l.length - 1) JVal.null) = .error e ∧
        scanInbounds start le l =
          .error ("No matching inbound found (need protocol=vless + security=reality). Last error: " ++ e) := by
  intro l
  induction l with
  | nil => intro start le hne; exact absurd rfl hne
  | cons v rest ih =>
    intro start le hne hall
    obtain ⟨e0, he0⟩ := hall 0 (Nat.succ_pos _)
    simp at he0
    cases rest with
    | nil =>
      refine ⟨e0, by simpa using he0, ?_⟩
      rw [scanInbounds, he0]
      rfl
    | cons w rest2 =>
      have hall' : ∀ j, j < (w :: rest2).length →
          ∃ e, parse_one (start + 1 + j) ((w :: rest2).getD j JVal.null) = .error e := by
        intro j hj
        obtain ⟨e, he⟩ := hall (j + 1) (by simpa using Nat.succ_lt_succ hj)
        refine ⟨e, ?_⟩
        rw [show start + 1 + j = start + (j + 1) by omega]
        simpa using he
      obtain ⟨e, helast, hscan⟩ := ih (start + 1) (some e0) (by simp) hall'
      refine ⟨e, ?_, ?_⟩
      · have h1 : start + 1 + ((w :: rest2).length - 1) =
            start + ((v :: w :: rest2).length - 1) := by simp; omega
        have h2 : (v :: w :: rest2).getD ((v :: w :: rest2).length - 1) JVal.null =
            (w :: rest2).getD ((w :: rest2).length - 1) JVal.null := by
          simp [List.getD_cons_succ]
        rw [h2, ← h1]
        exact helast
      · rw [scanInbounds, he0]
        exact hscan

/-! ## Claims C2 and C3: inbound selection -/

theorem select_unfold_auto (cfg : List (String × JVal)) (ibs : List JVal)
    (harr : dictGet cfg "inbounds" = JVal.arr ibs) (hne : ibs ≠ []) :
    _select_inbound cfg none = scanInbounds 0 none ibs := by
  unfold _select_inbound
  rw [harr]
  simp [_expect_list, pyCheck, hne]

/-- C2: with no explicit index, selection scans candidates in array order:
if candidate `i` validates and every earlier candidate fails, the result is
candidate `i`'s record; if every candidate fails, selection fails with the
aggregate message carrying the last candidate's error. -/
theorem select_inbound_auto_spec (cfg : List (String × JVal)) (ibs : List JVal)
    (harr : dictGet cfg "inbounds" = JVal.arr ibs) :
    (∀ i r, i < ibs.length → parse_one i (ibs.getD i JVal.null) = .ok r →
      (∀ j, j < i → ∃ e, parse_one j (ibs.getD j JVal.null) = .error e) →
      _select_inbound cfg none = .ok r) ∧
    (ibs ≠ [] →
      (∀ i, i < ibs.length → ∃ e, parse_one i (ibs.getD i JVal.null) = .error e) →
      ∃ e, parse_one (ibs.length - 1) (ibs.getD (ibs.length - 1) JVal.null) = .error e ∧
        _select_inbound cfg none =
          .error ("No matching inbound found (need protocol=vless + security=reality). Last error: " ++ e)) := by
  constructor
  · intro i r hi hok hprev
    have hne : ibs ≠ [] := by
      intro he; subst he; simp at hi
    rw [select_unfold_auto cfg ibs harr hne]
    refine scan_first_success ibs 0 none i r hi (by simpa using hok) ?_
    intro j hj
    obtain ⟨e, he⟩ := hprev j hj
    exact ⟨e, by simpa using he⟩
  · intro hne hall
    obtain ⟨e, helast, hscan⟩ := scan_all_fail ibs 0 none hne (by simpa using hall)
    refine ⟨e, by simpa using helast, ?_⟩
    rw [select_unfold_auto cfg ibs harr hne]
    exact hscan

/-- C2 witness: in `cfgBadFirst` the first candidate fails (not an object)
and the second is valid; auto-selection returns the second candidate's
record. -/
theorem select_inbound_auto_spec_witness :
    _select_inbound cfgBadFirst none = .ok exampleRecord :=
  (select_inbound_auto_spec cfgBadFirst
      [JVal.str "bad",
        mkInbound "11111111-1111-1111-1111-111111111111" none 443 "tcp" "example.com" "ab12"
          "aaaaaaaaaaaaaaaaaaaaaaaaaaaaaaaa"] rfl).1
    1 exampleRecord (by decide) (by decide)
    (fun j hj => by
      interval_cases j
      exact ⟨"Expected object at inbounds[0], got str", by decide⟩)

/-- C3: with an explicit index into a non-empty inbounds array, an index
outside `0 ≤ i < length` fails with the range error naming the valid range,
and an in-range index is validated alone — the result is exactly
`parse_one` on that candidate, whatever the other candidates contain (so a
validation failure propagates and no fallback happens). -/
theorem select_inbound_explicit_spec (cfg : List (String × JVal)) (ibs : List JVal)
    (harr : dictGet cfg "inbounds" = JVal.arr ibs) (hne : ibs ≠ []) :
    (∀ i : Int, i < 0 ∨ i ≥ ibs.length →
      _select_inbound cfg (some i) =
        .error ("--inbound-index " ++ toString i ++ " is out of range (0.." ++
          toString ((ibs.length : Int) - 1) ++ ")")) ∧
    (∀ i : Int, 0 ≤ i → i < ibs.length →
      _select_inbound cfg (some i) = parse_one i.toNat (ibs.getD i.toNat JVal.null)) := by
  have hch : pyCheck (!ibs.isEmpty) "No inbounds found in config" = .ok () := by
    simp [pyCheck, List.isEmpty_iff, hne]
  constructor
  · intro i hrange
    unfold _select_inbound
    rw [harr]
    simp only [_expect_list, exceptBind_ok, hch]
    rw [if_pos hrange]
    rfl
  · intro i h0 hlen
    unfold _select_inbound
    rw [harr]
    simp only [_expect_list, exceptBind_ok, hch]
    rw [if_neg (by omega)]

/-- C3 witness: on the one-inbound example document, index 5 yields the
range error for the range `0..0`, and index 0 validates exactly that
candidate. -/
theorem select_inbound_explicit_spec_witness :
    _select_inbound exampleCfg (some 5) =
      .error "--inbound-index 5 is out of range (0..0)" ∧
    _select_inbound exampleCfg (some 0) = .ok exampleRecord := by
  have h := select_inbound_explicit_spec exampleCfg
    [mkInbound "11111111-1111-1111-1111-111111111111" none 443 "tcp" "example.com" "ab12"
      "aaaaaaaaaaaaaaaaaaaaaaaaaaaaaaaa"] rfl (List.cons_ne_nil _ _)
  constructor
  · have h5 := h.1 5 (by decide)
    rw [h5]
    rfl
  · have h0 := h.2 0 (by decide) (by decide)
    rw [h0]
    decide

/-! ## Claim C10: the flow invariant -/

theorem exceptMap_eq_ok {ε α β : Type} {e : Except ε α} {f : α → β} {b : β}
    (h : e.map f = .ok b) : ∃ a, e = .ok a ∧ f a = b := by
  cases e with
  | ok a =>
    refine ⟨a, rfl, ?_⟩
    simpa using h
  | error msg => simp at h

theorem optStrField_ok {v : JVal} {w : String} {flow : Option String}
    (h : optStrField v w = .ok flow) :
    flow = none ∨ ∃ f, flow = some f ∧ f ≠ "" ∧ pyStrip f = f := by
  cases v with
  | null =>
    left
    simpa [optStrField] using h.symm
  | str t =>
    right
    obtain ⟨s, hs, hb⟩ := exceptMap_eq_ok h
    obtain ⟨t', _, _, hne, hid⟩ := expect_str_ok hs
    exact ⟨s, hb.symm, hne, hid⟩
  | bool b => simp [optStrField, _expect_str] at h
  | int n => simp [optStrField, _expect_str] at h
  | arr xs => simp [optStrField, _expect_str] at h
  | obj kvs => simp [optStrField, _expect_str] at h

theorem parse_one_ok_flow {idx : Nat} {v : JVal} {r : RealityInbound}
    (h : parse_one idx v = .ok r) :
    r.flow = none ∨ ∃ f, r.flow = some f ∧ f ≠ "" ∧ pyStrip f = f := by
  unfold parse_one at h
  obtain ⟨ib, _, h⟩ := exceptBind_eq_ok h
  obtain ⟨_, _, h⟩ := exceptBind_eq_ok h
  obtain ⟨port, _, h⟩ := exceptBind_eq_ok h
  obtain ⟨_, _, h⟩ := exceptBind_eq_ok h
  obtain ⟨settings, _, h⟩ := exceptBind_eq_ok h
  obtain ⟨clients, _, h⟩ := exceptBind_eq_ok h
  obtain ⟨_, _, h⟩ := exceptBind_eq_ok h
  obtain ⟨c0, _, h⟩ := exceptBind_eq_ok h
  obtain ⟨uuid, _, h⟩ := exceptBind_eq_ok h
  obtain ⟨flow, hflow, h⟩ := exceptBind_eq_ok h
  obtain ⟨stream, _, h⟩ := exceptBind_eq_ok h
  obtain ⟨network, _, h⟩ := exceptBind_eq_ok h
  obtain ⟨security, _, h⟩ := exceptBind_eq_ok h
  obtain ⟨_, _, h⟩ := exceptBind_eq_ok h
  obtain ⟨reality, _, h⟩ := exceptBind_eq_ok h
  obtain ⟨server_names, _, h⟩ := exceptBind_eq_ok h
  obtain ⟨_, _, h⟩ := exceptBind_eq_ok h
  obtain ⟨sni, _, h⟩ := exceptBind_eq_ok h
  obtain ⟨short_ids, _, h⟩ := exceptBind_eq_ok h
  obtain ⟨_, _, h⟩ := exceptBind_eq_ok h
  obtain ⟨short_id, _, h⟩ := exceptBind_eq_ok h
  obtain ⟨private_key, _, h⟩ := exceptBind_eq_ok h
  obtain ⟨_, _, h⟩ := exceptBind_eq_ok h
  obtain ⟨_, _, h⟩ := exceptBind_eq_ok h
  obtain ⟨_, _, h⟩ := exceptBind_eq_ok h
  simp only [exceptPure_eq, Except.ok.injEq] at h
  have hr : r.flow = flow := by rw [← h]
  rw [hr]
  exact optStrField_ok hflow

theorem scan_ok_parse {l : List JVal} :
    ∀ {start : Nat} {le : Option String} {r : RealityInbound},
      scanInbounds start le l = .ok r → ∃ idx v, parse_one idx v = .ok r := by
  induction l with
  | nil => intro start le r h; simp [scanInbounds] at h
  | cons v rest ih =>
    intro start le r h
    rw [scanInbounds] at h
    cases hp : parse_one start v with
    | ok r' =>
      rw [hp] at h
      simp at h
      exact ⟨start, v, by rw [hp, h]⟩
    | error e =>
      rw [hp] at h
      exact ih h

theorem select_ok_parse {cfg : List (String × JVal)} {idxOpt : Option Int}
    {r : RealityInbound} (h : _select_inbound cfg idxOpt = .ok r) :
    ∃ idx v, parse_one idx v = .ok r := by
  unfold _select_inbound at h
  obtain ⟨inbounds, _, h⟩ := exceptBind_eq_ok h
  obtain ⟨_, _, h⟩ := exceptBind_eq_ok h
  cases idxOpt with
  | some i =>
    simp only at h
    split at h
    · simp at h
    · exact ⟨i.toNat, inbounds.getD i.toNat JVal.null, h⟩
  | none => exact scan_ok_parse h

/-- C10: every record produced by extraction (with or without an explicit
index) has `flow` either absent or a non-empty, already-whitespace-stripped
string; consequently the truthiness test of the URI builder (`flowParams`)
appends the flow parameter exactly when `flow` is present.  Moreover a
candidate whose `flow` field is present but strips to empty always fails
extraction, whatever its other fields hold. -/
theorem extraction_flow_invariant (cfg : List (String × JVal)) (idxOpt : Option Int)
    (r : RealityInbound) (h : _select_inbound cfg idxOpt = .ok r) :
    (r.flow = none ∨ ∃ f, r.flow = some f ∧ f ≠ "" ∧ pyStrip f = f) ∧
    (flowParams r.flow = [] ↔ r.flow = none) ∧
    (∀ uuid w port network sni shortId pk, pyStrip w = "" →
      ∃ e, _select_inbound (mkCfg uuid (some w) port network sni shortId pk) none = .error e) := by
  obtain ⟨idx, v, hp⟩ := select_ok_parse h
  have hinv := parse_one_ok_flow hp
  refine ⟨hinv, ?_, ?_⟩
  · rcases hinv with hn | ⟨f, hf, hne, _⟩
    · simp [hn, flowParams]
    · simp [hf, flowParams, hne]
  · intro uuid w port network sni shortId pk hw
    cases hsel : _select_inbound (mkCfg uuid (some w) port network sni shortId pk) none with
    | error e => exact ⟨e, rfl⟩
    | ok r' =>
      exfalso
      rw [select_unfold_auto (mkCfg uuid (some w) port network sni shortId pk)
        [mkInbound uuid (some w) port network sni shortId pk] rfl (List.cons_ne_nil _ _)] at hsel
      cases hp : parse_one 0 (mkInbound uuid (some w) port network sni shortId pk) with
      | error e =>
        simp [scanInbounds, hp] at hsel
      | ok rr =>
        clear hsel
        unfold parse_one mkInbound at hp
        simp [dictGet, List.find?, jIsStr, pyCheck, _expect_int, _expect_dict,
          _expect_list, optStrField, _expect_str, List.headD, hw] at hp
        obtain ⟨_, _, hp⟩ := exceptBind_eq_ok hp
        obtain ⟨_, _, hp⟩ := exceptBind_eq_ok hp
        simp at hp

/-- C10 witness: the invariant and the truthiness coincidence at the
example extraction, and failure of a whitespace-only flow field. -/
theorem extraction_flow_invariant_witness :
    (exampleRecord.flow = none ∨ ∃ f, exampleRecord.flow = some f ∧ f ≠ "" ∧ pyStrip f = f) ∧
    (flowParams exampleRecord.flow = [] ↔ exampleRecord.flow = none) ∧
    (∃ e, _select_inbound (mkCfg "u" (some " ") 443 "tcp" "s" "ab12" "k") none = .error e) := by
  have h := extraction_flow_invariant exampleCfg none exampleRecord (by decide)
  exact ⟨h.1, h.2.1, h.2.2 "u" " " 443 "tcp" "s" "ab12" "k" (by decide)⟩

/-! ## Claim C6: URI construction -/

theorem strExt {s t : String} (h : s.data = t.data) : s = t := by
  cases s; cases t; exact congrArg String.mk h

/-- C6 counterexample: on a record whose `flow` is present but empty, the
built URI carries no `flow` query parameter (it equals the flow-free URI),
refuting "the flow parameter is present in the query iff `record.flow` is
present". -/
theorem build_vless_link_emptyflow_counterexample :
    emptyFlowRecord.flow.isSome = true ∧
    build_vless_link "1.2.3.4" "x" "chrome" emptyFlowRecord "PUBKEYBBBBBBBBBBBBBBBBBBBBBBBBBB" =
      "vless://11111111-1111-1111-1111-111111111111@1.2.3.4:443?type=tcp&security=reality&sni=example.com&fp=chrome&pbk=PUBKEYBBBBBBBBBBBBBBBBBBBBBBBBBB&sid=ab12#x" := by
  constructor
  · decide
  · decide

/-- The URI builder as a closed formula of its inputs (shared template). -/
theorem build_link_template (server name fp : String) (ib : RealityInbound)
    (pk : String) :
    build_vless_link server name fp ib pk =
      "vless://" ++ ib.uuid ++ "@" ++ server ++ ":" ++ toString ib.port ++ "?type=" ++
        pyQuote [] ib.network ++ "&security=reality&sni=" ++ pyQuote [] ib.sni ++
        "&fp=" ++ pyQuote [] fp ++ "&pbk=" ++ pyQuote [] pk ++ "&sid=" ++
        pyQuote [] ib.short_id ++
        (match ib.flow with
         | some f => if f = "" then "" else "&flow=" ++ pyQuote [] f
         | none => "") ++ "#" ++ pyQuote [] name := by
  have h1 : pyQuoteL [] ['t', 'y', 'p', 'e'] = ['t', 'y', 'p', 'e'] := by decide
  have h2 : pyQuoteL [] ['s', 'e', 'c', 'u', 'r', 'i', 't', 'y'] =
      ['s', 'e', 'c', 'u', 'r', 'i', 't', 'y'] := by decide
  have h3 : pyQuoteL [] ['r', 'e', 'a', 'l', 'i', 't', 'y'] =
      ['r', 'e', 'a', 'l', 'i', 't', 'y'] := by decide
  have h4 : pyQuoteL [] ['s', 'n', 'i'] = ['s', 'n', 'i'] := by decide
  have h5 : pyQuoteL [] ['f', 'p'] = ['f', 'p'] := by decide
  have h6 : pyQuoteL [] ['p', 'b', 'k'] = ['p', 'b', 'k'] := by decide
  have h7 : pyQuoteL [] ['s', 'i', 'd'] = ['s', 'i', 'd'] := by decide
  have h8 : pyQuoteL [] ['f', 'l', 'o', 'w'] = ['f', 'l', 'o', 'w'] := by decide
  apply strExt
  unfold build_vless_link pyUrlencode flowParams pyQuote
  cases ib.flow with
  | none => simp [String.data_append, joinSep, h1, h2, h3, h4, h5, h6, h7]
  | some f =>
    by_cases he : f = "" <;>
      simp [he, String.data_append, joinSep, h1, h2, h3, h4, h5, h6, h7, h8]

/-- C6 (amended): URI construction is deterministic — the output is the
closed formula below in its inputs, with the query parameters in the fixed
order type, security, sni, fp, pbk, sid, then flow; the `flow` parameter is
appended iff `record.flow` is truthy (present and non-empty), in which case
it is last, immediately before the `#` fragment. -/
theorem build_vless_link_deterministic (server name fp : String) (ib : RealityInbound)
    (pk : String) :
    build_vless_link server name fp ib pk =
      "vless://" ++ ib.uuid ++ "@" ++ server ++ ":" ++ toString ib.port ++ "?type=" ++
        pyQuote [] ib.network ++ "&security=reality&sni=" ++ pyQuote [] ib.sni ++
        "&fp=" ++ pyQuote [] fp ++ "&pbk=" ++ pyQuote [] pk ++ "&sid=" ++
        pyQuote [] ib.short_id ++
        (match ib.flow with
         | some f => if f = "" then "" else "&flow=" ++ pyQuote [] f
         | none => "") ++ "#" ++ pyQuote [] name ∧
    (flowParams ib.flow ≠ [] ↔ ib.flow ≠ none ∧ ib.flow ≠ some "") := by
  refine ⟨build_link_template server name fp ib pk, ?_⟩
  cases ib.flow with
  | none => simp [flowParams]
  | some f => by_cases he : f = "" <;> simp [flowParams, he]


/-! ## Claim C8: percent-encoding round trip -/

theorem charToNat_lt (c : Char) : c.toNat < 1114112 := by
  rcases c.valid with h | ⟨_, h2⟩
  · have h' : c.toNat < 55296 := by
      simpa [Char.lt_def, UInt32.lt_def, BitVec.lt_def] using h
    omega
  · simpa [Char.lt_def, UInt32.lt_def, BitVec.lt_def] using h2

theorem alwaysSafe_bounds {c : Char} (h : alwaysSafeChar c = true) :
    c.toNat < 128 ∧ c ≠ '%' := by
  simp only [alwaysSafeChar, Bool.or_eq_true, Bool.and_eq_true, decide_eq_true_eq] at h
  rcases h with ((((((⟨h1, h2⟩ | ⟨h1, h2⟩) | ⟨h1, h2⟩) | h) | h) | h) | h)
  · have hl : c.toNat ≤ 90 := h2
    have hg : 65 ≤ c.toNat := h1
    refine ⟨by omega, fun he => ?_⟩
    rw [he] at hg
    simp at hg
  · have hl : c.toNat ≤ 122 := h2
    have hg : 97 ≤ c.toNat := h1
    refine ⟨by omega, fun he => ?_⟩
    rw [he] at hg
    simp at hg
  · have hl : c.toNat ≤ 57 := h2
    have hg : 48 ≤ c.toNat := h1
    refine ⟨by omega, fun he => ?_⟩
    rw [he] at hg
    simp at hg
  · subst h; exact ⟨by decide, by decide⟩
  · subst h; exact ⟨by decide, by decide⟩
  · subst h; exact ⟨by decide, by decide⟩
  · subst h; exact ⟨by decide, by decide⟩

theorem utf8Bytes_one {c : Char} (h : c.toNat < 128) : utf8Bytes c = [c.toNat] := by
  unfold utf8Bytes
  rw [if_pos h]

theorem utf8Bytes_two {c : Char} (h1 : ¬ c.toNat < 128) (h2 : c.toNat < 2048) :
    utf8Bytes c = [192 + c.toNat / 64, 128 + c.toNat % 64] := by
  unfold utf8Bytes
  rw [if_neg h1, if_pos h2]

theorem utf8Bytes_three {c : Char} (h1 : ¬ c.toNat < 128) (h2 : ¬ c.toNat < 2048)
    (h3 : c.toNat < 65536) :
    utf8Bytes c = [224 + c.toNat / 4096, 128 + c.toNat / 64 % 64, 128 + c.toNat % 64] := by
  unfold utf8Bytes
  rw [if_neg h1, if_neg h2, if_pos h3]

theorem utf8Bytes_four {c : Char} (h1 : ¬ c.toNat < 128) (h2 : ¬ c.toNat < 2048)
    (h3 : ¬ c.toNat < 65536) :
    utf8Bytes c = [240 + c.toNat / 262144, 128 + c.toNat / 4096 % 64,
      128 + c.toNat / 64 % 64, 128 + c.toNat % 64] := by
  unfold utf8Bytes
  rw [if_neg h1, if_neg h2, if_neg h3]

theorem utf8Bytes_lt256 (c : Char) : ∀ b ∈ utf8Bytes c, b < 256 := by
  have hv := charToNat_lt c
  by_cases h1 : c.toNat < 128
  · rw [utf8Bytes_one h1]
    intro b hb
    simp at hb
    omega
  · by_cases h2 : c.toNat < 2048
    · rw [utf8Bytes_two h1 h2]
      intro b hb
      simp at hb
      rcases hb with hb | hb <;> omega
    · by_cases h3 : c.toNat < 65536
      · rw [utf8Bytes_three h1 h2 h3]
        intro b hb
        simp at hb
        rcases hb with hb | hb | hb <;> omega
      · rw [utf8Bytes_four h1 h2 h3]
        intro b hb
        simp at hb
        rcases hb with hb | hb | hb | hb <;> omega

theorem utf8Bytes_length_pos (c : Char) : 0 < (utf8Bytes c).length := by
  unfold utf8Bytes
  split_ifs <;> simp

theorem utf8DecodeOne_encode (c : Char) (k : List Nat) :
    utf8DecodeOne (utf8Bytes c ++ k) = some (c, k) := by
  have hv := charToNat_lt c
  by_cases h1 : c.toNat < 128
  · rw [utf8Bytes_one h1]
    simp only [List.cons_append, List.nil_append, utf8DecodeOne]
    rw [if_pos h1, Char.ofNat_toNat]
  · by_cases h2 : c.toNat < 2048
    · rw [utf8Bytes_two h1 h2]
      simp only [List.cons_append, List.nil_append]
      have e0 : ¬ (192 + c.toNat / 64 < 128) := by omega
      have e1 : ¬ (192 + c.toNat / 64 < 192) := by omega
      have e2 : 192 + c.toNat / 64 < 224 := by omega
      have hc : isContByte (128 + c.toNat % 64) = true := by
        simp only [isContByte, Bool.and_eq_true, decide_eq_true_eq]
        omega
      simp [utf8DecodeOne, e0, e1, e2, hc]
      conv_rhs => rw [← Char.ofNat_toNat c]
      congr 1
      omega
    · by_cases h3 : c.toNat < 65536
      · rw [utf8Bytes_three h1 h2 h3]
        simp only [List.cons_append, List.nil_append]
        have e0 : ¬ (224 + c.toNat / 4096 < 128) := by omega
        have e1 : ¬ (224 + c.toNat / 4096 < 192) := by omega
        have e2 : ¬ (224 + c.toNat / 4096 < 224) := by omega
        have e3 : 224 + c.toNat / 4096 < 240 := by omega
        have hc1 : isContByte (128 + c.toNat / 64 % 64) = true := by
          simp only [isContByte, Bool.and_eq_true, decide_eq_true_eq]
          omega
        have hc2 : isContByte (128 + c.toNat % 64) = true := by
          simp only [isContByte, Bool.and_eq_true, decide_eq_true_eq]
          omega
        simp [utf8DecodeOne, e0, e1, e2, e3, hc1, hc2]
        conv_rhs => rw [← Char.ofNat_toNat c]
        congr 1
        omega
      · rw [utf8Bytes_four h1 h2 h3]
        simp only [List.cons_append, List.nil_append]
        have e0 : ¬ (240 + c.toNat / 262144 < 128) := by omega
        have e1 : ¬ (240 + c.toNat / 262144 < 192) := by omega
        have e2 : ¬ (240 + c.toNat / 262144 < 224) := by omega
        have e3 : ¬ (240 + c.toNat / 262144 < 240) := by omega
        have e4 : 240 + c.toNat / 262144 < 248 := by omega
        have hc1 : isContByte (128 + c.toNat / 4096 % 64) = true := by
          simp only [isContByte, Bool.and_eq_true, decide_eq_true_eq]
          omega
        have hc2 : isContByte (128 + c.toNat / 64 % 64) = true := by
          simp only [isContByte, Bool.and_eq_true, decide_eq_true_eq]
          omega
        have hc3 : isContByte (128 + c.toNat % 64) = true := by
          simp only [isContByte, Bool.and_eq_true, decide_eq_true_eq]
          omega
        simp [utf8DecodeOne, e0, e1, e2, e3, e4, hc1, hc2, hc3]
        conv_rhs => rw [← Char.ofNat_toNat c]
        congr 1
        omega

theorem utf8DecodeFuel_encode (cs : List Char) :
    ∀ fuel, (cs.flatMap utf8Bytes).length ≤ fuel →
      utf8DecodeFuel fuel (cs.flatMap utf8Bytes) = some cs := by
  induction cs with
  | nil =>
    intro fuel _
    cases fuel <;> rfl
  | cons c rest ih =>
    intro fuel hf
    rw [List.flatMap_cons] at hf ⊢
    have hpos := utf8Bytes_length_pos c
    cases fuel with
    | zero =>
      exfalso
      rw [List.length_append] at hf
      omega
    | succ f =>
      obtain ⟨b, l, hsh⟩ : ∃ b l, utf8Bytes c ++ rest.flatMap utf8Bytes = b :: l := by
        cases hx : utf8Bytes c ++ rest.flatMap utf8Bytes with
        | nil =>
          exfalso
          have h0 : (utf8Bytes c).length + (rest.flatMap utf8Bytes).length = 0 := by
            have h1 := congrArg List.length hx
            simpa [List.length_append] using h1
          omega
        | cons b l => exact ⟨b, l, rfl⟩
      rw [hsh, utf8DecodeFuel, ← hsh, utf8DecodeOne_encode]
      have hlen : (rest.flatMap utf8Bytes).length ≤ f := by
        rw [List.length_append] at hf
        omega
      simp [ih f hlen]

theorem utf8Decode_encode (cs : List Char) :
    utf8Decode (cs.flatMap utf8Bytes) = some cs :=
  utf8DecodeFuel_encode cs _ le_rfl

theorem hexUpper_roundtrip {n : Nat} (h : n < 16) :
    hexDigitVal? (hexUpper n) = some n := by
  interval_cases n <;> decide

theorem percentDecode_bytes_append (bs : List Nat) (h : ∀ b ∈ bs, b < 256)
    (k : List Char) :
    percentDecodeBytes (bs.flatMap percentByte ++ k) =
      (percentDecodeBytes k).map (bs ++ ·) := by
  induction bs with
  | nil =>
    cases hk : percentDecodeBytes k <;> simp [hk]
  | cons b bs ih =>
    have hb : b < 256 := h b (by simp)
    have hd1 : hexDigitVal? (hexUpper (b / 16)) = some (b / 16) :=
      hexUpper_roundtrip (by omega)
    have hd2 : hexDigitVal? (hexUpper (b % 16)) = some (b % 16) :=
      hexUpper_roundtrip (by omega)
    have ih' := ih (fun x hx => h x (by simp [hx]))
    rw [List.flatMap_cons, List.append_assoc]
    simp only [percentByte, List.cons_append, List.nil_append]
    rw [percentDecodeBytes]
    simp only [reduceIte, hd1, hd2, Option.bind_some, ih']
    cases percentDecodeBytes k with
    | none => simp
    | some t =>
      simp
      omega

theorem percentDecode_cons_plain (c : Char) (l : List Char) (hp : c ≠ '%')
    (h : c.toNat < 128) :
    percentDecodeBytes (c :: l) = (percentDecodeBytes l).map (c.toNat :: ·) := by
  cases l with
  | nil => simp [percentDecodeBytes, hp, h]
  | cons x xs =>
    cases xs with
    | nil => simp [percentDecodeBytes, hp, h]
    | cons y ys => rw [percentDecodeBytes, if_neg hp, if_pos h]

theorem percentDecode_quote (l : List Char) :
    percentDecodeBytes (pyQuoteL [] l) = some (l.flatMap utf8Bytes) := by
  induction l with
  | nil => rfl
  | cons c rest ih =>
    rw [List.flatMap_cons]
    by_cases hs : alwaysSafeChar c = true
    · obtain ⟨h128, hpct⟩ := alwaysSafe_bounds hs
      rw [utf8Bytes_one h128]
      have hq : pyQuoteL [] (c :: rest) = c :: pyQuoteL [] rest := by
        simp [pyQuoteL, hs]
      rw [hq, percentDecode_cons_plain c _ hpct h128, ih]
      simp
    · have hq : pyQuoteL [] (c :: rest) =
          (utf8Bytes c).flatMap percentByte ++ pyQuoteL [] rest := by
        simp [pyQuoteL, hs]
      rw [hq, percentDecode_bytes_append (utf8Bytes c) (utf8Bytes_lt256 c), ih]
      simp

theorem pyUnquote_pyQuote (s : String) : pyUnquote (pyQuote [] s) = some s := by
  unfold pyUnquote pyQuote
  rw [show (String.mk (pyQuoteL [] s.data)).data = pyQuoteL [] s.data from rfl]
  rw [percentDecode_quote]
  simp [utf8Decode_encode]

/-- C8: every constructed URI is the explicit template whose query
parameter values and fragment are the percent-encodings of the record's
transport, serverName, shortId and flow, the fingerprint, the public key
and the name; and percent-decoding each of those encoded values recovers
exactly the original unencoded input value. -/
theorem build_link_percent_roundtrip (server name fp pk : String) (ib : RealityInbound) :
    build_vless_link server name fp ib pk =
      "vless://" ++ ib.uuid ++ "@" ++ server ++ ":" ++ toString ib.port ++ "?type=" ++
        pyQuote [] ib.network ++ "&security=reality&sni=" ++ pyQuote [] ib.sni ++
        "&fp=" ++ pyQuote [] fp ++ "&pbk=" ++ pyQuote [] pk ++ "&sid=" ++
        pyQuote [] ib.short_id ++
        (match ib.flow with
         | some f => if f = "" then "" else "&flow=" ++ pyQuote [] f
         | none => "") ++ "#" ++ pyQuote [] name ∧
    pyUnquote (pyQuote [] ib.network) = some ib.network ∧
    pyUnquote (pyQuote [] ib.sni) = some ib.sni ∧
    pyUnquote (pyQuote [] ib.short_id) = some ib.short_id ∧
    (∀ f, ib.flow = some f → pyUnquote (pyQuote [] f) = some f) ∧
    pyUnquote (pyQuote [] fp) = some fp ∧
    pyUnquote (pyQuote [] pk) = some pk ∧
    pyUnquote (pyQuote [] name) = some name :=
  ⟨build_link_template server name fp ib pk,
   pyUnquote_pyQuote ib.network, pyUnquote_pyQuote ib.sni,
   pyUnquote_pyQuote ib.short_id, fun f _ => pyUnquote_pyQuote f,
   pyUnquote_pyQuote fp, pyUnquote_pyQuote pk, pyUnquote_pyQuote name⟩

/-- C8 witness: the round trip at the concrete flow-carrying record. -/
theorem build_link_percent_roundtrip_witness :
    pyUnquote (pyQuote [] "xtls-rprx-vision") = some "xtls-rprx-vision" ∧
    pyUnquote (pyQuote [] "example.com") = some "example.com" :=
  ⟨(build_link_percent_roundtrip "1.2.3.4" "x" "chrome" "PK" flowRecord).2.2.2.2.1
      "xtls-rprx-vision" rfl,
   (build_link_percent_roundtrip "1.2.3.4" "x" "chrome" "PK" flowRecord).2.2.1⟩

/-! ## Claim C7: key derivation boundary -/

/-- C7 (amended): derivation succeeds exactly when the binary spawns, exits
zero, the MULTILINE search for the label regex (label `Password` or
`PublicKey` at a line start, whitespace — possibly spanning line breaks, so
the token may sit on a following line — then one whitespace-free token and
only whitespace to the line end) finds a token, and that token passes the
URL-safe-base64 check used for `privateKey`; in that case it returns the
token.  A non-zero exit yields the error embedding the process output. -/
theorem compute_public_key_spec (pk : String) (spawn : Option ProcResult) :
    ((∃ r, compute_public_key_from_private pk spawn = .ok r) ↔
      (∃ proc t, spawn = some proc ∧ proc.returncode = 0 ∧
        findKeyToken (pyStrip proc.stdout) = some t ∧
        b64urlMatch (pyStrip t) = true)) ∧
    (∀ proc t, spawn = some proc → proc.returncode = 0 →
      findKeyToken (pyStrip proc.stdout) = some t → b64urlMatch (pyStrip t) = true →
      compute_public_key_from_private pk spawn = .ok (pyStrip t)) ∧
    (∀ proc, spawn = some proc → proc.returncode ≠ 0 →
      compute_public_key_from_private pk spawn =
        .error ("xray x25519 -i failed (exit " ++ toString proc.returncode ++
          "). Output:\n" ++ pyStrip proc.stdout ++
          "\n\nHint: ensure privateKey is correct and xray is installed.")) := by
  refine ⟨⟨?_, ?_⟩, ?_, ?_⟩
  · rintro ⟨r, hr⟩
    cases spawn with
    | none => simp [compute_public_key_from_private] at hr
    | some proc =>
      by_cases hrc : proc.returncode = 0
      · cases hf : findKeyToken (pyStrip proc.stdout) with
        | none => simp [compute_public_key_from_private, hrc, hf] at hr
        | some m =>
          cases hb : b64urlMatch (pyStrip m) with
          | false => simp [compute_public_key_from_private, hrc, hf, hb] at hr
          | true => exact ⟨proc, m, rfl, hrc, hf, hb⟩
      · simp [compute_public_key_from_private, hrc] at hr
  · rintro ⟨proc, t, rfl, hrc, hf, hb⟩
    exact ⟨pyStrip t, by simp [compute_public_key_from_private, hrc, hf, hb]⟩
  · rintro proc t rfl hrc hf hb
    simp [compute_public_key_from_private, hrc, hf, hb]
  · rintro proc rfl hrc
    simp [compute_public_key_from_private, hrc]

/-- C7 witness: a zero-exit run whose second output line is
`Password: <token>` returns the token; a non-zero exit yields the error
embedding the output. -/
theorem compute_public_key_spec_witness :
    compute_public_key_from_private "k"
      (some ⟨0, "some text\nPassword: AAAAAAAAAAAAAAAAAAAAAAAAAAAAAAAA  "⟩) =
      .ok "AAAAAAAAAAAAAAAAAAAAAAAAAAAAAAAA" ∧
    compute_public_key_from_private "k" (some ⟨1, "boom"⟩) =
      .error "xray x25519 -i failed (exit 1). Output:\nboom\n\nHint: ensure privateKey is correct and xray is installed." := by
  constructor
  · have h := (compute_public_key_spec "k"
        (some ⟨0, "some text\nPassword: AAAAAAAAAAAAAAAAAAAAAAAAAAAAAAAA  "⟩)).2.1
      ⟨0, "some text\nPassword: AAAAAAAAAAAAAAAAAAAAAAAAAAAAAAAA  "⟩
      "AAAAAAAAAAAAAAAAAAAAAAAAAAAAAAAA" rfl rfl (by decide) (by decide)
    exact h.trans (by decide)
  · have h := (compute_public_key_spec "k" (some ⟨1, "boom"⟩)).2.2
      ⟨1, "boom"⟩ rfl (by decide)
    exact h.trans (by decide)

/-- C7 counterexample: the failure condition "no line of its output carries
the derived token" is refuted.  In the output `Password:` followed by the
token on the next line, no single line carries a labelled token (the
per-line reading of the claim finds none), yet the source regex's `\s*`
spans the newline under `re.MULTILINE`, so the program parses the token and
derivation succeeds. -/
theorem compute_public_key_crossline_counterexample :
    perLineKeyToken "Password:\nAAAAAAAAAAAAAAAAAAAAAAAAAAAAAAAA" = none ∧
    compute_public_key_from_private "k"
      (some ⟨0, "Password:\nAAAAAAAAAAAAAAAAAAAAAAAAAAAAAAAA"⟩) =
      .ok "AAAAAAAAAAAAAAAAAAAAAAAAAAAAAAAA" := by
  decide

/-! ## Claim C4: canonical UUID acceptance -/

theorem hex_ne_of {c t : Char} (h : isHexDigit c = true) (ht : isHexDigit t = false) :
    c ≠ t := fun he => by rw [he] at h; rw [h] at ht; cases ht

theorem hex_not_ws {c : Char} (h : isHexDigit c = true) : isPyWs c = false := by
  cases hw : isPyWs c with
  | false => rfl
  | true =>
    exfalso
    simp only [isPyWs, Bool.or_eq_true, decide_eq_true_eq] at hw
    rcases hw with ((((h1 | h1) | h1) | h1) | h1) | h1 <;> subst h1 <;>
      exact absurd h (by decide)

theorem removeOccsFuel_no_match {p : Char} {ps : List Char} :
    ∀ (fuel : Nat) (l : List Char), (∀ c ∈ l, c ≠ p) → removeOccsFuel p ps fuel l = l := by
  intro fuel
  induction fuel with
  | zero => intro l _; rfl
  | succ f ih =>
    intro l h
    cases l with
    | nil => rfl
    | cons c rest =>
      have hne := h c (by simp)
      have hcp : (p == c) = false := by
        simp only [beq_eq_false_iff_ne]
        exact fun he => hne he.symm
      rw [removeOccsFuel, List.isPrefixOf_cons₂, hcp]
      simp [ih rest (fun x hx => h x (by simp [hx]))]

theorem removeOccs_no_match {p : Char} {ps : List Char} {l : List Char}
    (h : ∀ c ∈ l, c ≠ p) : removeOccs p ps l = l :=
  removeOccsFuel_no_match _ _ h

theorem removeOccsFuel_single (p : Char) :
    ∀ (fuel : Nat) (l : List Char), l.length ≤ fuel →
      removeOccsFuel p [] fuel l = l.filter (fun c => c != p) := by
  intro fuel
  induction fuel with
  | zero =>
    intro l h
    cases l with
    | nil => rfl
    | cons c rest => simp at h
  | succ f ih =>
    intro l h
    cases l with
    | nil => rfl
    | cons c rest =>
      have hlen : rest.length ≤ f := by simp at h; omega
      rw [removeOccsFuel, List.isPrefixOf_cons₂]
      by_cases hc : p = c
      · subst hc
        simp [List.filter_cons, ih rest hlen]
      · have hcp : (p == c) = false := by
          simp only [beq_eq_false_iff_ne]
          exact hc
        rw [hcp]
        simp [List.filter_cons, ih rest hlen, Ne.symm hc]

theorem stripList_no {p : Char → Bool} {l : List Char}
    (h : ∀ c ∈ l, p c = false) : stripList p l = l := by
  have hdrop : ∀ m : List Char, (∀ c ∈ m, p c = false) → m.dropWhile p = m := by
    intro m hm
    cases m with
    | nil => rfl
    | cons c rest => rw [List.dropWhile_cons, if_neg (by simp [hm c (by simp)])]
  unfold stripList
  rw [hdrop l h, hdrop l.reverse (fun c hc => h c (List.mem_reverse.mp hc)),
    List.reverse_reverse]

theorem hexVal_lt16 {c : Char} (h : isHexDigit c = true) : hexVal c < 16 := by
  simp only [isHexDigit, Bool.or_eq_true, Bool.and_eq_true, decide_eq_true_eq] at h
  unfold hexVal
  rcases h with (⟨h1, h2⟩ | ⟨h1, h2⟩) | ⟨h1, h2⟩
  · have hg : 48 ≤ c.toNat := h1
    have hl : c.toNat ≤ 57 := h2
    rw [if_pos (by simp only [Bool.and_eq_true, decide_eq_true_eq]; exact ⟨h1, h2⟩)]
    omega
  · have hg : 97 ≤ c.toNat := h1
    have hl : c.toNat ≤ 102 := h2
    rw [if_neg (by
      simp only [Bool.and_eq_true, decide_eq_true_eq, not_and]
      intro _ h9
      have : c.toNat ≤ 57 := h9
      omega)]
    rw [if_pos (by simp only [Bool.and_eq_true, decide_eq_true_eq]; exact ⟨h1, h2⟩)]
    omega
  · have hg : 65 ≤ c.toNat := h1
    have hl : c.toNat ≤ 70 := h2
    rw [if_neg (by
      simp only [Bool.and_eq_true, decide_eq_true_eq, not_and]
      intro _ h9
      have : c.toNat ≤ 57 := h9
      omega)]
    rw [if_neg (by
      simp only [Bool.and_eq_true, decide_eq_true_eq, not_and]
      intro ha _
      have : 97 ≤ c.toNat := ha
      omega)]
    omega

theorem parseHexDigitsCore_cons {c : Char} (hcu : c ≠ '_') (acc : Nat)
    (rest : List Char) :
    parseHexDigitsCore acc (c :: rest) =
      if isHexDigit c then parseHexDigitsCore (acc * 16 + hexVal c) rest else none := by
  cases rest with
  | nil => simp [parseHexDigitsCore, hcu]
  | cons d rest2 => simp [parseHexDigitsCore, hcu]

theorem parseHexDigitsCore_all_hex :
    ∀ (l : List Char) (acc : Nat), (∀ c ∈ l, isHexDigit c = true) →
      ∃ v, parseHexDigitsCore acc l = some v ∧ v < (acc + 1) * 16 ^ l.length := by
  intro l
  induction l with
  | nil =>
    intro acc _
    refine ⟨acc, rfl, ?_⟩
    simp
  | cons c rest ih =>
    intro acc h
    have hc : isHexDigit c = true := h c (by simp)
    have hcu : c ≠ '_' := hex_ne_of hc (by decide)
    rw [parseHexDigitsCore_cons hcu, if_pos hc]
    obtain ⟨v, hv, hvb⟩ := ih (acc * 16 + hexVal c) (fun x hx => h x (by simp [hx]))
    refine ⟨v, hv, ?_⟩
    have hx16 := hexVal_lt16 hc
    have hstep : (acc * 16 + hexVal c + 1) ≤ (acc + 1) * 16 := by omega
    calc v < (acc * 16 + hexVal c + 1) * 16 ^ rest.length := hvb
      _ ≤ ((acc + 1) * 16) * 16 ^ rest.length :=
        Nat.mul_le_mul_right _ hstep
      _ = (acc + 1) * 16 ^ (c :: rest).length := by
        rw [List.length_cons, Nat.pow_succ]
        ring

theorem parseHexNum_all_hex {l : List Char} (hne : l ≠ [])
    (hhex : ∀ c ∈ l, isHexDigit c = true) :
    ∃ v, parseHexNum l = some v ∧ v < 16 ^ l.length := by
  cases l with
  | nil => exact absurd rfl hne
  | cons c rest =>
    have hc : isHexDigit c = true := hhex c (by simp)
    rw [parseHexNum, if_pos hc]
    obtain ⟨v, hv, hvb⟩ := parseHexDigitsCore_all_hex rest (hexVal c)
      (fun x hx => hhex x (by simp [hx]))
    refine ⟨v, hv, ?_⟩
    have hx16 := hexVal_lt16 hc
    calc v < (hexVal c + 1) * 16 ^ rest.length := hvb
      _ ≤ 16 * 16 ^ rest.length := Nat.mul_le_mul_right _ (by omega)
      _ = 16 ^ (c :: rest).length := by
        rw [List.length_cons, Nat.pow_succ]
        ring

theorem parseAfterSign_all_hex {l : List Char}
    (hhex : ∀ c ∈ l, isHexDigit c = true) :
    parseAfterSign l = parseHexNum l := by
  cases l with
  | nil => rfl
  | cons c0 rest =>
    cases rest with
    | nil =>
      by_cases h0 : c0 = '0'
      · subst h0
        rfl
      · simp [parseAfterSign, h0]
    | cons c1 rest2 =>
      by_cases h0 : c0 = '0'
      · subst h0
        have hc1 : isHexDigit c1 = true := hhex c1 (by simp)
        have hx : c1 ≠ 'x' := hex_ne_of hc1 (by decide)
        have hX : c1 ≠ 'X' := hex_ne_of hc1 (by decide)
        simp [parseAfterSign, hx, hX]
      · simp [parseAfterSign, h0]

theorem pyIntHex_all_hex {l : List Char} (hne : l ≠ [])
    (hhex : ∀ c ∈ l, isHexDigit c = true) :
    ∃ v : Nat, pyIntHex l = some (v : Int) ∧ v < 16 ^ l.length := by
  have hws : stripList isPyWs l = l := stripList_no (fun c hc => hex_not_ws (hhex c hc))
  cases l with
  | nil => exact absurd rfl hne
  | cons c rest =>
    have hc : isHexDigit c = true := hhex c (by simp)
    have hplus : c ≠ '+' := hex_ne_of hc (by decide)
    have hminus : c ≠ '-' := hex_ne_of hc (by decide)
    obtain ⟨v, hv, hvb⟩ := parseHexNum_all_hex (List.cons_ne_nil c rest) hhex
    refine ⟨v, ?_, hvb⟩
    unfold pyIntHex
    rw [hws]
    split
    · rename_i x r heq
      exact absurd heq (by simp [hplus])
    · rename_i x r heq
      exact absurd heq (by simp [hminus])
    · rw [parseAfterSign_all_hex hhex, hv]
      rfl

theorem hexRun_some :
    ∀ (k : Nat) (l r : List Char), hexRun k l = some r →
      ∃ pre, l = pre ++ r ∧ pre.length = k ∧ ∀ c ∈ pre, isHexDigit c = true := by
  intro k
  induction k with
  | zero =>
    intro l r h
    simp [hexRun] at h
    exact ⟨[], by simp [h], rfl, by simp⟩
  | succ n ih =>
    intro l r h
    cases l with
    | nil => simp [hexRun] at h
    | cons c rest =>
      rw [hexRun] at h
      by_cases hc : isHexDigit c = true
      · rw [if_pos hc] at h
        obtain ⟨pre, heq, hlen, hhex⟩ := ih rest r h
        refine ⟨c :: pre, by simp [heq], by simp [hlen], ?_⟩
        intro d hd
        rcases List.mem_cons.mp hd with hd | hd
        · rw [hd]; exact hc
        · exact hhex d hd
      · rw [if_neg (by simpa using hc)] at h
        cases h

theorem canonical_decompose {s : String} (h : isCanonicalUuid s = true) :
    ∃ a b c d e : List Char,
      s.data = a ++ '-' :: (b ++ '-' :: (c ++ '-' :: (d ++ '-' :: e))) ∧
      a.length = 8 ∧ b.length = 4 ∧ c.length = 4 ∧ d.length = 4 ∧ e.length = 12 ∧
      (∀ x ∈ a, isHexDigit x = true) ∧ (∀ x ∈ b, isHexDigit x = true) ∧
      (∀ x ∈ c, isHexDigit x = true) ∧ (∀ x ∈ d, isHexDigit x = true) ∧
      (∀ x ∈ e, isHexDigit x = true) := by
  unfold isCanonicalUuid at h
  split at h
  rotate_left
  · cases h
  rename_i v1 r1 heq1
  split at h
  rotate_left
  · cases h
  rename_i v2 r2 heq2
  split at h
  rotate_left
  · cases h
  rename_i v3 r3 heq3
  split at h
  rotate_left
  · cases h
  rename_i v4 r4 heq4
  rw [beq_iff_eq] at h
  obtain ⟨a, hsa, ha8, hha⟩ := hexRun_some 8 _ _ heq1
  obtain ⟨b, hsb, hb4, hhb⟩ := hexRun_some 4 _ _ heq2
  obtain ⟨c, hsc, hc4, hhc⟩ := hexRun_some 4 _ _ heq3
  obtain ⟨d, hsd, hd4, hhd⟩ := hexRun_some 4 _ _ heq4
  obtain ⟨e, hse, he12, hhe⟩ := hexRun_some 12 _ _ h
  rw [List.append_nil] at hse
  refine ⟨a, b, c, d, e, ?_, ha8, hb4, hc4, hd4, he12, hha, hhb, hhc, hhd, hhe⟩
  rw [hsa, hsb, hsc, hsd, hse]

/-- C4 (amended): UUID validation accepts every canonical hyphenated
36-character 8-4-4-4-12 hex form (but not only those: the standard parser
also accepts variants such as the 32-hex-digit unhyphenated form, see the
counterexample). -/
theorem validate_uuid_accepts_canonical (s : String) (h : isCanonicalUuid s = true) :
    _validate_uuid s = .ok () := by
  obtain ⟨a, b, c, d, e, hs, ha, hb, hc, hd, he, hxa, hxb, hxc, hxd, hxe⟩ :=
    canonical_decompose h
  have hall : ∀ x ∈ s.data, isHexDigit x = true ∨ x = '-' := by
    rw [hs]
    intro x hx
    simp only [List.mem_append, List.mem_cons] at hx
    rcases hx with hx | hx | hx | hx | hx | hx | hx | hx | hx
    · exact Or.inl (hxa x hx)
    · exact Or.inr hx
    · exact Or.inl (hxb x hx)
    · exact Or.inr hx
    · exact Or.inl (hxc x hx)
    · exact Or.inr hx
    · exact Or.inl (hxd x hx)
    · exact Or.inr hx
    · exact Or.inl (hxe x hx)
  have hnu : ∀ x ∈ s.data, x ≠ 'u' := by
    intro x hx
    rcases hall x hx with hh | hh
    · exact hex_ne_of hh (by decide)
    · rw [hh]; decide
  have h1 : removeOccs 'u' ['r', 'n', ':'] s.data = s.data := removeOccs_no_match hnu
  have h2 : removeOccs 'u' ['u', 'i', 'd', ':'] s.data = s.data := removeOccs_no_match hnu
  have h3 : stripList (fun ch => ch = '\x7b' || ch = '\x7d') s.data = s.data := by
    refine stripList_no ?_
    intro x hx
    rcases hall x hx with hh | hh
    · simp only [Bool.or_eq_false_iff, decide_eq_false_iff_not]
      exact ⟨hex_ne_of hh (by decide), hex_ne_of hh (by decide)⟩
    · rw [hh]; decide
  have hfil : ∀ (m : List Char), (∀ x ∈ m, isHexDigit x = true) →
      m.filter (fun ch => ch != '-') = m := by
    intro m hm
    refine List.filter_eq_self.mpr ?_
    intro x hx
    simp only [bne_iff_ne, ne_eq]
    exact hex_ne_of (hm x hx) (by decide)
  have h4 : removeOccs '-' [] s.data = a ++ b ++ c ++ d ++ e := by
    unfold removeOccs
    rw [removeOccsFuel_single '-' s.data.length s.data le_rfl, hs]
    simp [List.filter_append, List.filter_cons, hfil a hxa, hfil b hxb, hfil c hxc,
      hfil d hxd, hfil e hxe, List.append_assoc]
  have hlen : (a ++ b ++ c ++ d ++ e).length = 32 := by
    simp [ha, hb, hc, hd, he]
  have hhex5 : ∀ x ∈ a ++ b ++ c ++ d ++ e, isHexDigit x = true := by
    intro x hx
    simp only [List.mem_append] at hx
    rcases hx with (((hx | hx) | hx) | hx) | hx
    · exact hxa x hx
    · exact hxb x hx
    · exact hxc x hx
    · exact hxd x hx
    · exact hxe x hx
  have hne : a ++ b ++ c ++ d ++ e ≠ [] := by
    intro hh
    have := congrArg List.length hh
    rw [hlen] at this
    simp at this
  obtain ⟨v, hv, hvb⟩ := pyIntHex_all_hex hne hhex5
  have hv128 : (v : Int) < 2 ^ 128 := by
    have hb2 : (16 : Nat) ^ 32 = 2 ^ 128 := by norm_num
    have : v < 2 ^ 128 := by rw [← hb2, ← hlen]; exact hvb
    exact_mod_cast this
  unfold _validate_uuid
  have hok : pyUUIDOk s = true := by
    unfold pyUUIDOk
    simp only [h1, h2, h3, h4]
    rw [if_neg (by simp [List.length_append, ha, hb, hc, hd, he]), hv]
    simp only [decide_eq_true_eq]
    exact ⟨by positivity, hv128⟩
  rw [hok]
  rfl

/-- C4 (amended) witness: the canonical example identifier is accepted. -/
theorem validate_uuid_accepts_canonical_witness :
    isCanonicalUuid "11111111-1111-1111-1111-111111111111" = true ∧
    _validate_uuid "11111111-1111-1111-1111-111111111111" = .ok () :=
  ⟨by decide,
   validate_uuid_accepts_canonical "11111111-1111-1111-1111-111111111111" (by decide)⟩

/-! ## Claim C5: field normalization -/

/-- C5 counterexample: a candidate whose `network` is `" tcp "` (valid: its
strip is non-empty) extracts to a record whose `network` is the stripped
`"tcp"`, not the input value unchanged. -/
theorem extraction_field_strip_counterexample :
    _select_inbound (mkCfg "11111111-1111-1111-1111-111111111111" none 443 " tcp "
      "example.com" "ab12" "aaaaaaaaaaaaaaaaaaaaaaaaaaaaaaaa") none =
      .ok exampleRecord ∧ exampleRecord.network ≠ " tcp " := by
  constructor
  · decide
  · decide

/-- C5 (amended): on a fully valid one-candidate document, extraction
returns the record whose `short_id` is the whitespace-stripped, lowercased
input shortId and whose every other string field is the whitespace-stripped
input value (hence unchanged exactly when the input carries no surrounding
whitespace); `port` is returned unchanged. -/
theorem extraction_normalizes_fields (uuid : String) (flow : Option String) (port : Int)
    (network sni shortId pk : String)
    (hu : pyStrip uuid ≠ "") (huu : pyUUIDOk (pyStrip uuid) = true)
    (hp1 : 1 ≤ port) (hp2 : port ≤ 65535)
    (hn : pyStrip network ≠ "") (hsn : pyStrip sni ≠ "")
    (hsid : pyStrip shortId ≠ "") (hhex : hexReMatch (pyStrip shortId) = true)
    (heven : (pyStrip shortId).length % 2 = 0)
    (hpk : pyStrip pk ≠ "") (hb64 : b64urlMatch (pyStrip pk) = true)
    (hf : ∀ f, flow = some f → pyStrip f ≠ "") :
    _select_inbound (mkCfg uuid flow port network sni shortId pk) none =
      .ok { uuid := pyStrip uuid, flow := flow.map pyStrip, port := port,
            network := pyStrip network, sni := pyStrip sni,
            short_id := pyLower (pyStrip shortId), private_key := pyStrip pk } := by
  have hrel : pyStrip "reality" = "reality" := rfl
  have hparse : parse_one 0 (mkInbound uuid flow port network sni shortId pk) =
      .ok { uuid := pyStrip uuid, flow := flow.map pyStrip, port := port,
            network := pyStrip network, sni := pyStrip sni,
            short_id := pyLower (pyStrip shortId), private_key := pyStrip pk } := by
    cases flow with
    | none =>
      unfold parse_one mkInbound
      simp [dictGet, List.find?, _expect_dict, _expect_list, _expect_str, _expect_int,
        jIsStr, pyCheck, optStrField, List.headD, _validate_uuid, _validate_short_id,
        _validate_private_key, hrel, hu, huu, hn, hsn, hsid, hhex, heven, hpk, hb64,
        hp1, hp2]
    | some f =>
      have hff : pyStrip f ≠ "" := hf f rfl
      unfold parse_one mkInbound
      simp [dictGet, List.find?, _expect_dict, _expect_list, _expect_str, _expect_int,
        jIsStr, pyCheck, optStrField, List.headD, _validate_uuid, _validate_short_id,
        _validate_private_key, hrel, hu, huu, hn, hsn, hsid, hhex, heven, hpk, hb64,
        hp1, hp2, hff]
  rw [select_unfold_auto (mkCfg uuid flow port network sni shortId pk)
    [mkInbound uuid flow port network sni shortId pk] rfl (List.cons_ne_nil _ _)]
  simp [scanInbounds, hparse]

/-- C5 (amended) witness: concrete inputs with surrounding whitespace and
mixed case extract to the stripped, lowercased record. -/
theorem extraction_normalizes_fields_witness :
    _select_inbound (mkCfg " 11111111-1111-1111-1111-111111111111 " (some " vision ") 443
      " tcp " " example.com " " AB12 " " aaaaaaaaaaaaaaaaaaaaaaaaaaaaaaaa ") none =
      .ok { uuid := "11111111-1111-1111-1111-111111111111", flow := some "vision",
            port := 443, network := "tcp", sni := "example.com", short_id := "ab12",
            private_key := "aaaaaaaaaaaaaaaaaaaaaaaaaaaaaaaa" } := by
  have h := extraction_normalizes_fields " 11111111-1111-1111-1111-111111111111 "
    (some " vision ") 443 " tcp " " example.com " " AB12 "
    " aaaaaaaaaaaaaaaaaaaaaaaaaaaaaaaa " (by decide) (by decide) (by decide) (by decide)
    (by decide) (by decide) (by decide) (by decide) (by decide) (by decide) (by decide)
    (fun f hf => by injection hf with h1; rw [← h1]; decide)
  rw [h]
  decide
